import Mathlib

/-
  Shallow embedding of the spacefn-rs core: the key-event data model and the
  three-state remap machine (src/core.rs and src/main.rs).

  Machine integers are modelled as Nat (key codes, u16 / u32 rule fields) and
  Int (raw i32 event values); the u32 -> u16 cast in map_key is made explicit
  as a reduction modulo 65536. Fallible device I/O is not modelled: the state
  handlers are embedded as pure functions from an input item to the list of
  key events they emit plus the successor machine state. Non-key events, which
  every handler forwards verbatim without touching any state, are omitted from
  the input alphabet; the elapsing of the 200 ms Decide deadline, checked at
  the top of the Decide loop, is modelled as an explicit timeout input item.
-/

namespace Spacefn

/-- Wire protocol event kinds, src/core.rs lines 6-11 (underlying 0/1/2). -/
inductive KeyValue where
  | Release
  | Press
  | Repeat
deriving DecidableEq

/-- impl From i32 for KeyValue, src/core.rs lines 13-22: total, default Release. -/
def KeyValue.fromInt (v : Int) : KeyValue :=
  if v = 0 then .Release
  else if v = 1 then .Press
  else if v = 2 then .Repeat
  else .Release

/-- The value as i32 used when a KeyValue is emitted (discriminant values). -/
def KeyValue.toInt : KeyValue → Int
  | .Release => 0
  | .Press => 1
  | .Repeat => 2

/-- Machine states, src/core.rs lines 24-29. -/
inductive State where
  | Idle
  | Decide
  | Shift
deriving DecidableEq

/-- One configuration rule, an entry of keys_map: [u32; 3] in src/config.rs:
    original code, replacement (0 = keep), extended (0 = none). -/
structure MappingRule where
  original : Nat
  replacement : Nat
  extended : Nat
deriving DecidableEq

/-- Configuration: device path and the ordered rule list. -/
structure Config where
  keyboard : String
  keys_map : List MappingRule
deriving DecidableEq

/-- StateMachine::map_key, src/core.rs lines 105-122: first-match linear scan
    of keys_map; the for loop is embedded as structural recursion. The Rust
    casts of mapping[1] and mapping[2] to u16 are reductions mod 65536. -/
def mapKeyList : List MappingRule → Nat → Nat × Option Nat
  | [], original => (original, none)
  | m :: rest, original =>
    if m.original = original then
      ((if m.replacement ≠ 0 then m.replacement % 65536 else original),
       (if m.extended ≠ 0 then some (m.extended % 65536) else none))
    else mapKeyList rest original

def map_key (cfg : Config) (original : Nat) : Nat × Option Nat :=
  mapKeyList cfg.keys_map original

/-- KEY_SPACE, src/main.rs line 27. -/
def KEY_SPACE : Nat := 57

/-- One event written to the virtual sink via send_key(code, value). -/
structure OutEvent where
  code : Nat
  value : Int
deriving DecidableEq

/-- Vec::remove at the position of the first occurrence (the
    iter().position + remove idiom of src/main.rs lines 205-207 and 251-253,
    and of KeyBuffer::remove in src/core.rs lines 55-61). -/
def removeFirst : List Nat → Nat → List Nat
  | [], _ => []
  | x :: xs, c => if x = c then xs else x :: removeFirst xs c

/-- The local binding actual_code of send_mapped_key, src/main.rs line 268:
    the effective code actually emitted, falling back to the original when the
    (possibly truncated) mapped code is 0. Lifted to a named definition so
    that theorem statements can speak about the effective code. -/
def actual_code (cfg : Config) (code : Nat) : Nat :=
  if (map_key cfg code).1 ≠ 0 then (map_key cfg code).1 else code

/-- send_mapped_key, src/main.rs lines 260-274: resolve the code, emit the
    extended code first when present, then the effective code, both with the
    same value; return whether an actual remap occurred. -/
def send_mapped_key (cfg : Config) (code : Nat) (value : KeyValue) :
    List OutEvent × Bool :=
  ((match (map_key cfg code).2 with
    | some ext => [⟨ext, value.toInt⟩]
    | none => []) ++ [⟨actual_code cfg code, value.toInt⟩],
   decide ((map_key cfg code).1 ≠ 0 ∧ (map_key cfg code).1 ≠ code))

/-- An input to a state handler: a KEY event carrying its raw i32 value, or
    the elapsing of the Decide deadline. -/
inductive InputItem where
  | key (code : Nat) (value : Int)
  | timeout
deriving DecidableEq

/-- The mutable session state of run_state_machine, src/main.rs lines 79-80:
    current state and the shared Vec buffer. -/
structure Machine where
  state : State
  buffer : List Nat
deriving DecidableEq

/-- run_idle_state, src/main.rs lines 129-151: withhold a modifier Press and
    go to Decide; pass every other key event through with its raw value. -/
def stepIdle (code : Nat) (raw : Int) : List OutEvent × State :=
  if code = KEY_SPACE ∧ KeyValue.fromInt raw = .Press then ([], .Decide)
  else ([⟨code, raw⟩], .Idle)

/-- run_decide_state event handling, src/main.rs lines 153-215. The branches,
    in source order: modifier Release (tap), any Press (buffer it), Release of
    an unbuffered code (raw pass-through), Release of a buffered code (combo);
    anything else (Repeat) falls through every branch. Deadline expiry
    (lines 166-172) flushes mapped Presses and moves to Shift. -/
def stepDecide (cfg : Config) (buf : List Nat) :
    InputItem → List OutEvent × State × List Nat
  | .timeout =>
    ((buf.flatMap fun c => (send_mapped_key cfg c .Press).1), .Shift, buf)
  | .key code raw =>
    if code = KEY_SPACE ∧ KeyValue.fromInt raw = .Release then
      ([⟨KEY_SPACE, 1⟩, ⟨KEY_SPACE, 0⟩] ++ buf.map fun c => ⟨c, 1⟩, .Idle, buf)
    else if KeyValue.fromInt raw = .Press then
      ([], .Decide, if buf.contains code then buf else buf ++ [code])
    else if KeyValue.fromInt raw = .Release ∧ buf.contains code = false then
      ([⟨code, raw⟩], .Decide, buf)
    else if KeyValue.fromInt raw = .Release ∧ buf.contains code = true then
      ((send_mapped_key cfg code .Press).1 ++ (send_mapped_key cfg code .Release).1,
       .Shift, removeFirst buf code)
    else ([], .Decide, buf)

/-- run_shift_state, src/main.rs lines 217-258: modifier Release flushes a
    mapped Release for every buffered code, clears the buffer and returns to
    Idle; any other modifier event is swallowed; any other key is emitted via
    send_mapped_key and buffer-tracked only when the emission remapped it. -/
def stepShift (cfg : Config) (buf : List Nat) :
    InputItem → List OutEvent × State × List Nat
  | .timeout => ([], .Shift, buf)
  | .key code raw =>
    if code = KEY_SPACE ∧ KeyValue.fromInt raw = .Release then
      ((buf.flatMap fun c => (send_mapped_key cfg c .Release).1), .Idle, [])
    else if code = KEY_SPACE then
      ([], .Shift, buf)
    else
      let r := send_mapped_key cfg code (KeyValue.fromInt raw)
      (r.1, .Shift,
       if r.2 then
         if KeyValue.fromInt raw = .Press then
           (if buf.contains code then buf else buf ++ [code])
         else if KeyValue.fromInt raw = .Release then removeFirst buf code
         else buf
       else buf)

/-- One dispatch step of the loop in run_state_machine, src/main.rs lines
    84-115. Entering Decide clears the buffer (run_decide_state line 161). -/
def step (cfg : Config) (m : Machine) (item : InputItem) :
    List OutEvent × Machine :=
  match m.state with
  | .Idle =>
    match item with
    | .timeout => ([], m)
    | .key code raw =>
      let r := stepIdle code raw
      (r.1, ⟨r.2, if r.2 = State.Decide then [] else m.buffer⟩)
  | .Decide =>
    let r := stepDecide cfg m.buffer item
    (r.1, ⟨r.2.1, r.2.2⟩)
  | .Shift =>
    let r := stepShift cfg m.buffer item
    (r.1, ⟨r.2.1, r.2.2⟩)

/-- Run the machine over a whole input sequence, concatenating emissions. -/
def run (cfg : Config) (m : Machine) : List InputItem → List OutEvent × Machine
  | [] => ([], m)
  | item :: rest =>
    let r := step cfg m item
    let rr := run cfg r.2 rest
    (r.1 ++ rr.1, rr.2)

/-- Number of events emitted for a code with a given wire value. -/
def countVal (evs : List OutEvent) (c : Nat) (v : Int) : Nat :=
  (evs.filter fun e => e.code == c && e.value == v).length

def pressCount (evs : List OutEvent) (c : Nat) : Nat := countVal evs c 1

def releaseCount (evs : List OutEvent) (c : Nat) : Nat := countVal evs c 0

/-- MAX_BUFFER, src/core.rs line 4. -/
def MAX_BUFFER : Nat := 8

/-- KeyBuffer, src/core.rs lines 31-78. -/
structure KeyBuffer where
  buffer : List Nat
deriving DecidableEq

def KeyBuffer.contains (b : KeyBuffer) (c : Nat) : Bool :=
  b.buffer.contains c

/-- KeyBuffer::append, src/core.rs lines 44-53. -/
def KeyBuffer.append (b : KeyBuffer) (c : Nat) : KeyBuffer × Bool :=
  if MAX_BUFFER ≤ b.buffer.length then (b, false)
  else if b.buffer.contains c then (b, false)
  else (⟨b.buffer ++ [c]⟩, true)

/-- KeyBuffer::remove, src/core.rs lines 55-61 (position is some exactly when
    the list contains the code; Vec::remove at it drops the first occurrence). -/
def KeyBuffer.remove (b : KeyBuffer) (c : Nat) : KeyBuffer × Bool :=
  if b.buffer.contains c then (⟨removeFirst b.buffer c⟩, true) else (b, false)

/-- KeyBuffer::clear, src/core.rs lines 63-65. -/
def KeyBuffer.clear (_b : KeyBuffer) : KeyBuffer := ⟨[]⟩

/-- KeyBuffer::new, src/core.rs lines 36-38. -/
def KeyBuffer.new : KeyBuffer := ⟨[]⟩

/-- The buffers reachable from KeyBuffer::new through the public mutating API. -/
inductive ReachableBuffer : KeyBuffer → Prop where
  | new : ReachableBuffer KeyBuffer.new
  | append (b : KeyBuffer) (c : Nat) :
      ReachableBuffer b → ReachableBuffer (b.append c).1
  | remove (b : KeyBuffer) (c : Nat) :
      ReachableBuffer b → ReachableBuffer (b.remove c).1
  | clear (b : KeyBuffer) :
      ReachableBuffer b → ReachableBuffer b.clear


/-! Shared concrete inputs used by the theorems below. -/

/-- The default configuration: no device path, no mapping rules. -/
def emptyCfg : Config := ⟨"", []⟩

/-- A configuration whose single rule has both replacement and extended set to
    zero-free values, as in the repository test test_key_map_with_extended. -/
def extCfg : Config := ⟨"", [⟨104, 0, 109⟩]⟩

/-- Claim C2 amended: in Decide, a non-modifier Press before the deadline is
    appended to the buffer unless the code is already present; a duplicate is
    silently ignored, with no emission either way. The Decide handler applies
    no capacity bound (see the counterexample below). -/
theorem c2_decide_press_append (cfg : Config) (buf : List Nat) (code : Nat)
    (raw : Int) (hmod : code ≠ KEY_SPACE)
    (hp : KeyValue.fromInt raw = KeyValue.Press) :
    step cfg ⟨State.Decide, buf⟩ (.key code raw) =
      ([], ⟨State.Decide, if buf.contains code then buf else buf ++ [code]⟩) := by
  simp [step, stepDecide, hp, hmod]

/-- Witness for c2_decide_press_append: duplicate append ignored, fresh
    append recorded at the end, nothing emitted. -/
theorem c2_decide_press_append_witness :
    step emptyCfg ⟨State.Decide, [30]⟩ (.key 30 1) =
      ([], ⟨State.Decide, [30]⟩) ∧
    step emptyCfg ⟨State.Decide, [31]⟩ (.key 30 1) =
      ([], ⟨State.Decide, [31, 30]⟩) := by
  constructor
  · rw [c2_decide_press_append emptyCfg [30] 30 1 (by decide) (by decide)]
    decide
  · rw [c2_decide_press_append emptyCfg [31] 30 1 (by decide) (by decide)]
    decide

/-- Claim C2 counterexample: nine distinct non-modifier Presses inside one
    Decide window are all buffered; the buffer reaches length 9 > 8 while the
    machine is still in Decide, and no event was emitted for any of them. -/
theorem c2_no_capacity_bound_counterexample :
    run emptyCfg ⟨State.Idle, []⟩
        [.key 57 1, .key 1 1, .key 2 1, .key 3 1, .key 4 1, .key 5 1,
         .key 6 1, .key 7 1, .key 8 1, .key 9 1] =
      ([], ⟨State.Decide, [1, 2, 3, 4, 5, 6, 7, 8, 9]⟩) ∧
    8 < ([1, 2, 3, 4, 5, 6, 7, 8, 9] : List Nat).length := by
  decide

/-- Claim C3: in Decide, a modifier Release before the deadline emits a
    synthetic modifier Press then modifier Release, then every buffered code
    in insertion order as a plain unmapped Press, and moves to Idle. -/
theorem c3_tap (cfg : Config) (buf : List Nat) (raw : Int)
    (hr : KeyValue.fromInt raw = KeyValue.Release) :
    step cfg ⟨State.Decide, buf⟩ (.key KEY_SPACE raw) =
      ([⟨KEY_SPACE, 1⟩, ⟨KEY_SPACE, 0⟩] ++ buf.map (fun c => ⟨c, 1⟩),
       ⟨State.Idle, buf⟩) := by
  simp [step, stepDecide, hr]

/-- Witness for c3_tap: a tap with one buffered code. -/
theorem c3_tap_witness :
    step emptyCfg ⟨State.Decide, [30]⟩ (.key KEY_SPACE 0) =
      ([⟨57, 1⟩, ⟨57, 0⟩, ⟨30, 1⟩], ⟨State.Idle, [30]⟩) := by
  rw [c3_tap emptyCfg [30] 0 (by decide)]
  decide

/-- Claim C4: in Decide, a Release of a buffered non-modifier code removes it
    from the buffer, emits its mapped Press then its mapped Release, and moves
    to Shift; if it was the only buffered code the buffer is empty after. -/
theorem c4_combo (cfg : Config) (buf : List Nat) (code : Nat) (raw : Int)
    (hmod : code ≠ KEY_SPACE) (hr : KeyValue.fromInt raw = KeyValue.Release)
    (hin : buf.contains code = true) :
    step cfg ⟨State.Decide, buf⟩ (.key code raw) =
      ((send_mapped_key cfg code KeyValue.Press).1 ++
         (send_mapped_key cfg code KeyValue.Release).1,
       ⟨State.Shift, removeFirst buf code⟩) ∧
    (buf = [code] → removeFirst buf code = []) := by
  have hin2 : code ∈ buf := by simpa using hin
  constructor
  · simp [step, stepDecide, hr, hmod, hin2]
  · intro hb
    subst hb
    simp [removeFirst]

/-- Witness for c4_combo: a combo on code 30 with rule [30, 105, 0]. -/
theorem c4_combo_witness :
    step ⟨"", [⟨30, 105, 0⟩]⟩ ⟨State.Decide, [30]⟩ (.key 30 0) =
      ([⟨105, 1⟩, ⟨105, 0⟩], ⟨State.Shift, []⟩) := by
  have h := (c4_combo ⟨"", [⟨30, 105, 0⟩]⟩ [30] 30 0 (by decide) (by decide)
    (by decide)).1
  rw [h]
  decide

/-- All events of one send_mapped_key emission carry the wire value of the
    given event kind. -/
theorem send_mapped_key_value (cfg : Config) (code : Nat) (v : KeyValue) :
    ∀ e ∈ (send_mapped_key cfg code v).1, e.value = v.toInt := by
  intro e he
  unfold send_mapped_key at he
  rcases hext : (map_key cfg code).2 with _ | ext <;>
    rw [hext] at he <;> simp at he
  · rw [he]
  · rcases he with he | he <;> rw [he]

/-- Claim C5: in Decide, deadline expiry emits a mapped Press for every
    buffered code (and those emissions are all Presses on the wire, value 1,
    never a Release), and moves to Shift with the buffer retained. -/
theorem c5_timeout (cfg : Config) (buf : List Nat) :
    step cfg ⟨State.Decide, buf⟩ .timeout =
      ((buf.flatMap fun c => (send_mapped_key cfg c KeyValue.Press).1),
       ⟨State.Shift, buf⟩) ∧
    ∀ e ∈ (step cfg ⟨State.Decide, buf⟩ .timeout).1, e.value = 1 := by
  constructor
  · simp [step, stepDecide]
  · intro e he
    simp [step, stepDecide] at he
    obtain ⟨c, _, hc⟩ := he
    exact send_mapped_key_value cfg c KeyValue.Press e hc

/-- Witness for c5_timeout: timeout with buffer [30] under the empty mapping
    emits exactly the plain Press of 30 and keeps the buffer in Shift. -/
theorem c5_timeout_witness :
    step emptyCfg ⟨State.Decide, [30]⟩ .timeout =
      ([⟨30, 1⟩], ⟨State.Shift, [30]⟩) ∧
    (⟨30, 1⟩ : OutEvent).value = 1 := by
  constructor
  · rw [(c5_timeout emptyCfg [30]).1]
    decide
  · exact (c5_timeout emptyCfg [30]).2 ⟨30, 1⟩ (by decide)

/-- Claim C6: in Shift, a modifier Release emits the mapped Release of every
    code still in the buffer, clears the buffer and moves to Idle; any other
    modifier event is swallowed with no emission and no state or buffer
    change. -/
theorem c6_shift_modifier (cfg : Config) (buf : List Nat) (raw : Int) :
    (KeyValue.fromInt raw = KeyValue.Release →
      step cfg ⟨State.Shift, buf⟩ (.key KEY_SPACE raw) =
        ((buf.flatMap fun c => (send_mapped_key cfg c KeyValue.Release).1),
         ⟨State.Idle, []⟩)) ∧
    (KeyValue.fromInt raw ≠ KeyValue.Release →
      step cfg ⟨State.Shift, buf⟩ (.key KEY_SPACE raw) =
        ([], ⟨State.Shift, buf⟩)) := by
  constructor <;> intro h <;> simp [step, stepShift, h]

/-- Witness for c6_shift_modifier: with buffer [30], a modifier Release
    flushes the release of 30 and goes Idle; a modifier Press is swallowed. -/
theorem c6_shift_modifier_witness :
    step emptyCfg ⟨State.Shift, [30]⟩ (.key KEY_SPACE 0) =
      ([⟨30, 0⟩], ⟨State.Idle, []⟩) ∧
    step emptyCfg ⟨State.Shift, [30]⟩ (.key KEY_SPACE 1) =
      ([], ⟨State.Shift, [30]⟩) := by
  constructor
  · rw [(c6_shift_modifier emptyCfg [30] 0).1 (by decide)]
    decide
  · rw [(c6_shift_modifier emptyCfg [30] 1).2 (by decide)]

/-- Claim C7: whenever mapping resolution yields an extended code, the
    emission helper emits the extended-code event strictly before the
    effective-code event, both with the wire value of the same event kind;
    and it returns true exactly when the effective code differs from the
    original. -/
theorem c7_send_mapped_key (cfg : Config) (code : Nat) (v : KeyValue) :
    (∀ ext, (map_key cfg code).2 = some ext →
      (send_mapped_key cfg code v).1 =
        [⟨ext, v.toInt⟩, ⟨actual_code cfg code, v.toInt⟩]) ∧
    ((send_mapped_key cfg code v).2 = true ↔ actual_code cfg code ≠ code) := by
  constructor
  · intro ext hext
    simp [send_mapped_key, hext]
  · unfold send_mapped_key actual_code
    by_cases h0 : (map_key cfg code).1 = 0 <;> simp [h0]

/-- Witness for c7_send_mapped_key at the rule [104, 0, 109]: the extended
    event 109 comes first, the effective event 104 second, both Presses, and
    the helper reports no remap since the effective code equals the original. -/
theorem c7_send_mapped_key_witness :
    (send_mapped_key extCfg 104 KeyValue.Press).1 =
      [⟨109, 1⟩, ⟨104, 1⟩] ∧
    ((send_mapped_key extCfg 104 KeyValue.Press).2 = true ↔
      actual_code extCfg 104 ≠ 104) := by
  constructor
  · rw [(c7_send_mapped_key extCfg 104 KeyValue.Press).1 109 (by decide)]
    decide
  · exact (c7_send_mapped_key extCfg 104 KeyValue.Press).2

/-- map_key as a first-match lookup over the rule list. -/
theorem mapKeyList_eq_find (rules : List MappingRule) (original : Nat) :
    mapKeyList rules original =
      match rules.find? (fun m => m.original == original) with
      | none => (original, none)
      | some m =>
        ((if m.replacement ≠ 0 then m.replacement % 65536 else original),
         (if m.extended ≠ 0 then some (m.extended % 65536) else none)) := by
  induction rules with
  | nil => rfl
  | cons m rest ih =>
    by_cases h : m.original = original
    · have hb : (m.original == original) = true := by simpa using h
      simp [mapKeyList, List.find?, h, hb]
    · have hb : (m.original == original) = false := by simpa using h
      simp [mapKeyList, List.find?, h, hb, ih]

/-- Claim C8 counterexample: the rule [30, 65536, 0] has a nonzero replacement
    field, yet code 30 resolves to effective code 0, not 65536, because of the
    u32 to u16 cast in map_key. -/
theorem c8_truncation_counterexample :
    (65536 : Nat) ≠ 0 ∧
    map_key ⟨"", [⟨30, 65536, 0⟩]⟩ 30 = (0, none) ∧
    (0 : Nat) ≠ 65536 := by
  decide

/-- Claim C8 amended: resolution is a first-to-last scan returning at the
    first rule whose original field matches; a replacement field of 0 yields
    the original and a nonzero one yields its value reduced mod 2 ^ 16 (the
    u16 cast); an extended field of 0 yields none and a nonzero one its value
    reduced mod 2 ^ 16; no match passes the original through. Rule
    [30, 105, 0] resolves 30 to (105, none) and rule [104, 0, 109] resolves
    104 to (104, some 109). -/
theorem c8_map_key_first_match (cfg : Config) (original : Nat) :
    map_key cfg original =
      (match cfg.keys_map.find? (fun m => m.original == original) with
       | none => (original, none)
       | some m =>
         ((if m.replacement ≠ 0 then m.replacement % 65536 else original),
          (if m.extended ≠ 0 then some (m.extended % 65536) else none))) ∧
    map_key ⟨"", [⟨30, 105, 0⟩]⟩ 30 = (105, none) ∧
    map_key extCfg 104 = (104, some 109) ∧
    map_key emptyCfg original = (original, none) := by
  refine ⟨mapKeyList_eq_find cfg.keys_map original, by decide, by decide, rfl⟩

/-- Claim C1 (the code violates it): space Press, Press of the unmapped code
    30, deadline expiry, Release of 30, Release of space drives the machine
    Idle, Decide, Shift and back to Idle, yet emits one Press of the effective
    code 30 and two Releases of it: the Shift handler emits the release of a
    pass-through code without removing it from the buffer (it untracks only
    remapped codes), so the modifier-release flush emits a second Release. -/
theorem c1_press_release_imbalance :
    run emptyCfg ⟨State.Idle, []⟩
        [.key 57 1, .key 30 1, .timeout, .key 30 0, .key 57 0] =
      ([⟨30, 1⟩, ⟨30, 0⟩, ⟨30, 0⟩], ⟨State.Idle, []⟩) ∧
    (run emptyCfg ⟨State.Idle, []⟩ [.key 57 1]).2.state = State.Decide ∧
    (run emptyCfg ⟨State.Idle, []⟩ [.key 57 1, .key 30 1, .timeout]).2 =
      ⟨State.Shift, [30]⟩ ∧
    pressCount [⟨30, 1⟩, ⟨30, 0⟩, ⟨30, 0⟩] 30 = 1 ∧
    releaseCount [⟨30, 1⟩, ⟨30, 0⟩, ⟨30, 0⟩] 30 = 2 ∧
    (1 : Nat) ≠ 2 := by
  decide

/-- Claim C10 counterexample: the unrecognized wire value 7 converts to
    Release, and the Idle handler takes the Release branch for it, yet it is
    not processed as a Release would be: the pass-through emission forwards
    the raw value 7, whereas a genuine Release emits value 0. -/
theorem c10_raw_value_counterexample :
    KeyValue.fromInt 7 = KeyValue.Release ∧
    step emptyCfg ⟨State.Idle, []⟩ (.key 30 7) =
      ([⟨30, 7⟩], ⟨State.Idle, []⟩) ∧
    step emptyCfg ⟨State.Idle, []⟩ (.key 30 0) =
      ([⟨30, 0⟩], ⟨State.Idle, []⟩) ∧
    (⟨30, 7⟩ : OutEvent) ≠ (⟨30, 0⟩ : OutEvent) := by
  decide

/-- Claim C10 amended: the conversion is total with 0, 1, 2 mapping to
    Release, Press, Repeat and every other integer to Release; consequently a
    key event with an unrecognized wire value drives exactly the same state
    and buffer transition in every handler as a genuine Release of the same
    code, though pass-through emission forwards the original raw value. -/
theorem c10_from_int_total (v : Int) (cfg : Config) (m : Machine)
    (code : Nat) :
    KeyValue.fromInt 0 = KeyValue.Release ∧
    KeyValue.fromInt 1 = KeyValue.Press ∧
    KeyValue.fromInt 2 = KeyValue.Repeat ∧
    (v ≠ 0 → v ≠ 1 → v ≠ 2 → KeyValue.fromInt v = KeyValue.Release) ∧
    (KeyValue.fromInt v = KeyValue.Release →
      (step cfg m (.key code v)).2 = (step cfg m (.key code 0)).2) := by
  have h0 : KeyValue.fromInt 0 = KeyValue.Release := rfl
  refine ⟨rfl, rfl, rfl, ?_, ?_⟩
  · intro h1 h2 h3
    simp [KeyValue.fromInt, h1, h2, h3]
  · intro h
    obtain ⟨st, buf⟩ := m
    cases st with
    | Idle => simp [step, stepIdle, h, h0]
    | Decide =>
      by_cases hc : code = KEY_SPACE <;>
        by_cases hb : code ∈ buf <;>
          simp [step, stepDecide, h, h0, hc, hb]
    | Shift =>
      by_cases hc : code = KEY_SPACE <;>
        simp [step, stepShift, h, h0, hc]

/-- Witness for c10_from_int_total: the raw value 7 converts to Release and,
    in Idle, drives the same successor machine as the raw value 0 does. -/
theorem c10_from_int_total_witness :
    KeyValue.fromInt 7 = KeyValue.Release ∧
    (step emptyCfg ⟨State.Idle, []⟩ (.key 30 7)).2 =
      (step emptyCfg ⟨State.Idle, []⟩ (.key 30 0)).2 := by
  refine ⟨(c10_from_int_total 7 emptyCfg ⟨State.Idle, []⟩ 30).2.2.2.1
    (by decide) (by decide) (by decide), ?_⟩
  exact (c10_from_int_total 7 emptyCfg ⟨State.Idle, []⟩ 30).2.2.2.2 (by decide)

/-- Removing the first occurrence yields a sublist of the original list. -/
theorem removeFirst_sublist (l : List Nat) (c : Nat) :
    List.Sublist (removeFirst l c) l := by
  induction l with
  | nil => simp [removeFirst]
  | cons x xs ih =>
    by_cases h : x = c
    · simp [removeFirst, h]
    · simpa [removeFirst, h] using ih

/-- Every KeyBuffer reachable through the public mutating API is
    duplicate-free and no longer than MAX_BUFFER. -/
theorem reachable_buffer_invariant (b : KeyBuffer) (h : ReachableBuffer b) :
    b.buffer.Nodup ∧ b.buffer.length ≤ MAX_BUFFER := by
  induction h with
  | new => simp [KeyBuffer.new, MAX_BUFFER]
  | append b c _ ih =>
    unfold KeyBuffer.append
    split
    · exact ih
    next hlen =>
      split
      · exact ih
      next hc =>
        have hmem : c ∉ b.buffer := by simpa using hc
        refine ⟨?_, ?_⟩
        · simp [List.nodup_append, ih.1, hmem]
        · simp only [List.length_append, List.length_singleton]
          omega
  | remove b c _ ih =>
    unfold KeyBuffer.remove
    split
    · exact ⟨(removeFirst_sublist b.buffer c).nodup ih.1,
        le_trans (removeFirst_sublist b.buffer c).length_le ih.2⟩
    · exact ih
  | clear b _ _ =>
    simp [KeyBuffer.clear, MAX_BUFFER]

/-- Append a whole list of codes in order; the flag is true only when every
    single append succeeded. -/
def appendAll : KeyBuffer → List Nat → KeyBuffer × Bool
  | b, [] => (b, true)
  | b, c :: cs =>
    ((appendAll (b.append c).1 cs).1,
     (b.append c).2 && (appendAll (b.append c).1 cs).2)

/-- Claim C9: append returns false without mutation at capacity or on a
    duplicate and otherwise pushes the code and returns true; remove of an
    absent code returns false; clear unconditionally empties and is
    idempotent; 8 distinct appends onto an empty buffer all succeed while a
    9th distinct one fails without mutation; and every buffer reachable
    through the API is duplicate-free with length at most 8. -/
theorem c9_key_buffer (b : KeyBuffer) (c : Nat) :
    (MAX_BUFFER ≤ b.buffer.length → b.append c = (b, false)) ∧
    (b.contains c = true → b.append c = (b, false)) ∧
    (b.buffer.length < MAX_BUFFER → b.contains c = false →
      b.append c = (⟨b.buffer ++ [c]⟩, true)) ∧
    (b.contains c = false → b.remove c = (b, false)) ∧
    (b.clear = ⟨[]⟩ ∧ b.clear.clear = b.clear) ∧
    (appendAll KeyBuffer.new [10, 11, 12, 13, 14, 15, 16, 17] =
      (⟨[10, 11, 12, 13, 14, 15, 16, 17]⟩, true) ∧
     appendAll KeyBuffer.new [10, 11, 12, 13, 14, 15, 16, 17, 18] =
      (⟨[10, 11, 12, 13, 14, 15, 16, 17]⟩, false)) ∧
    (∀ b2, ReachableBuffer b2 →
      b2.buffer.Nodup ∧ b2.buffer.length ≤ MAX_BUFFER) := by
  refine ⟨?_, ?_, ?_, ?_, ⟨rfl, rfl⟩, by decide, ?_⟩
  · intro hlen
    simp [KeyBuffer.append, hlen]
  · intro hc
    have hm : c ∈ b.buffer := by simpa [KeyBuffer.contains] using hc
    simp [KeyBuffer.append, hm]
  · intro hlen hc
    have hm : c ∉ b.buffer := by simpa [KeyBuffer.contains] using hc
    simp [KeyBuffer.append, hm]
    omega
  · intro hc
    have hm : c ∉ b.buffer := by simpa [KeyBuffer.contains] using hc
    simp [KeyBuffer.remove, hm]
  · exact fun b2 h2 => reachable_buffer_invariant b2 h2

/-- Witness for c9_key_buffer: the capacity refusal, duplicate refusal,
    successful push, absent-remove refusal and the invariant at a reachable
    one-element buffer, each at concrete inputs. -/
theorem c9_key_buffer_witness :
    KeyBuffer.append ⟨[0, 1, 2, 3, 4, 5, 6, 7]⟩ 20 =
      (⟨[0, 1, 2, 3, 4, 5, 6, 7]⟩, false) ∧
    KeyBuffer.append ⟨[5]⟩ 5 = (⟨[5]⟩, false) ∧
    KeyBuffer.append ⟨[5]⟩ 6 = (⟨[5, 6]⟩, true) ∧
    KeyBuffer.remove ⟨[5]⟩ 7 = (⟨[5]⟩, false) ∧
    ((KeyBuffer.mk [3]).buffer.Nodup ∧
      (KeyBuffer.mk [3]).buffer.length ≤ MAX_BUFFER) := by
  have hr : ReachableBuffer ⟨[3]⟩ := by
    have h1 := ReachableBuffer.append KeyBuffer.new 3 ReachableBuffer.new
    have h2 : (KeyBuffer.new.append 3).1 = ⟨[3]⟩ := by decide
    rwa [h2] at h1
  refine ⟨(c9_key_buffer ⟨[0, 1, 2, 3, 4, 5, 6, 7]⟩ 20).1 (by decide),
    (c9_key_buffer ⟨[5]⟩ 5).2.1 (by decide), ?_,
    (c9_key_buffer ⟨[5]⟩ 7).2.2.2.1 (by decide),
    (c9_key_buffer ⟨[3]⟩ 3).2.2.2.2.2.2 ⟨[3]⟩ hr⟩
  rw [(c9_key_buffer ⟨[5]⟩ 6).2.2.1 (by decide) (by decide)]
  decide

end Spacefn
